import Mathlib

/-!
Shallow embedding of the medtracker client state layer.

The definitions below are translated from `src/index.tsx` (the authoritative
copy; `src/unnamed/part_000` and `src/unnamed/part_001` contain the same
functions).  JavaScript objects are modelled as association lists preserving
insertion order; `{...prev, [k]: v}` replaces in place when the key exists and
appends otherwise; `Array.prototype.sort()` on strings is modelled by a
structural insertion sort (for a linear order the sorted list of a multiset is
unique, so this agrees with any correct comparison sort); `Set` construction is
modelled by first-occurrence deduplication.
-/

/-- JS property read `l[key]` on an object modelled as an association list. -/
def jsLookup {β : Type} (l : List (String × β)) (key : String) : Option β :=
  (l.find? (fun p => p.1 == key)).map (fun p => p.2)

/-- JS spread-update `{...l, [key]: v}`: replace in place if present, else append. -/
def jsObjectSet {β : Type} (l : List (String × β)) (key : String) (v : β) :
    List (String × β) :=
  if key ∈ l.map Prod.fst then
    l.map (fun p => if p.1 = key then (p.1, v) else p)
  else l ++ [(key, v)]

/-- Lexicographic code-unit comparison of character lists, the order used by
the JS default sort comparator. -/
def strLeData : List Char → List Char → Bool
  | [], _ => true
  | _ :: _, [] => false
  | c :: cs, d :: ds =>
    if c.toNat < d.toNat then true
    else if d.toNat < c.toNat then false
    else strLeData cs ds

/-- `a <= b` for JS strings (lexicographic by code unit). -/
def strLe (a b : String) : Bool :=
  strLeData a.data b.data

/-- `strLe` as a proposition, the sort relation. -/
def strLeP (a b : String) : Prop :=
  strLe a b = true

instance : DecidableRel strLeP :=
  fun a b => inferInstanceAs (Decidable (strLe a b = true))

/-- `Array.prototype.sort()` on an array of strings (default lexicographic
comparator).  Modelled with insertion sort, whose output coincides with any
comparison sort for this linear order. -/
def jsSortStrings (l : List String) : List String :=
  l.insertionSort strLeP

/-- One step of `new Set([...xs])` construction: add `x` if not yet present. -/
def insertUniq (acc : List String) (x : String) : List String :=
  if x ∈ acc then acc else acc ++ [x]

/-- `Array.from(new Set(l))`: first-occurrence deduplication, order preserved. -/
def jsDedup (l : List String) : List String :=
  l.foldl insertUniq []

/-- `interface TimeSlotData` from src/index.tsx lines 44-48. -/
structure TimeSlotData where
  value : Option Int
  medications : List String
  comments : String
deriving DecidableEq, Repr

/-- `type DailyData = Record<string, TimeSlotData>` (src/index.tsx line 49). -/
abbrev DailyData := List (String × TimeSlotData)

/-- `type HealthData = Record<string, DailyData>` (src/index.tsx line 50). -/
abbrev HealthData := List (String × DailyData)

/-- `type StandardPattern = Record<string, string[]>` (src/index.tsx line 51). -/
abbrev StandardPattern := List (String × List String)

/-- The in-memory bundle owned by the store (healthData, medications,
standardPattern of `AppProvider`, src/index.tsx lines 151-153). -/
structure AppState where
  healthData : HealthData
  medications : List String
  standardPattern : StandardPattern
deriving DecidableEq, Repr

/-- `padStart(2, '0')` applied to a decimal hour. -/
def pad2 (n : Nat) : String :=
  if n < 10 then "0" ++ toString n else toString n

/-- `TIME_SLOTS` from src/index.tsx lines 76-82: for h = 8..23 push "h:00",
and additionally "h:30" when h < 23. -/
def TIME_SLOTS : List String :=
  ((List.range' 8 16).map (fun h =>
    if h < 23 then [pad2 h ++ ":00", pad2 h ++ ":30"]
    else [pad2 h ++ ":00"])).flatten

/-- `updateHealthData` (src/index.tsx lines 217-220):
`setHealthData(prev => ({ ...prev, [date]: data }))`. -/
def updateHealthData (date : String) (data : DailyData) (s : AppState) : AppState :=
  { s with healthData := jsObjectSet s.healthData date data }

/-- `addMedication` (src/index.tsx lines 221-226): no-op when present, else
append and re-sort. -/
def addMedication (med : String) (s : AppState) : AppState :=
  if med ∈ s.medications then s
  else { s with medications := jsSortStrings (s.medications ++ [med]) }

/-- `m => m === oldMed ? newMed : m` mapped over a medication list. -/
def renameIn (oldMed newMed : String) (l : List String) : List String :=
  l.map (fun m => if m = oldMed then newMed else m)

/-- `editMedication` (src/index.tsx lines 227-241): rewrite every occurrence in
every day record and every pattern slot, then re-sort the catalog. -/
def editMedication (oldMed newMed : String) (s : AppState) : AppState :=
  { healthData := s.healthData.map (fun d =>
      (d.1, d.2.map (fun t =>
        (t.1, { t.2 with medications := renameIn oldMed newMed t.2.medications })))),
    standardPattern := s.standardPattern.map (fun t =>
      (t.1, renameIn oldMed newMed t.2)),
    medications := jsSortStrings (renameIn oldMed newMed s.medications) }

/-- `deleteMedication` (src/index.tsx lines 242-257): filter the name out of
every slot, drop pattern slots whose filtered list is empty, filter the
catalog. -/
def deleteMedication (med : String) (s : AppState) : AppState :=
  { healthData := s.healthData.map (fun d =>
      (d.1, d.2.map (fun t =>
        (t.1, { t.2 with medications := t.2.medications.filter (fun m => m != med) })))),
    standardPattern := s.standardPattern.filterMap (fun t =>
      let filtered := t.2.filter (fun m => m != med)
      if filtered.isEmpty then none else some (t.1, filtered)),
    medications := s.medications.filter (fun m => m != med) }

/-- Truthiness test `d.value != null || d.medications?.length > 0 || d.comments`
used by the calendar (src/index.tsx line 350). -/
def slotHasData (sl : TimeSlotData) : Bool :=
  sl.value.isSome || !sl.medications.isEmpty || sl.comments != ""

/-- The calendar's "has data" day marker (src/index.tsx lines 349-350):
`dayData && Object.values(dayData).some(d => d && (...))`. -/
def hasData (hd : HealthData) (date : String) : Bool :=
  match jsLookup hd date with
  | none => false
  | some daily => daily.any (fun t => slotHasData t.2)

/-- One iteration of the `Object.keys(standardPattern).forEach` loop of
`applyStandardPattern`: `if (newData[time])`, union the pattern medications
into the slot via a `Set`, else leave the grid alone. -/
def applyPatternSlot (g : DailyData) (t : String × List String) : DailyData :=
  match jsLookup g t.1 with
  | none => g
  | some slot =>
      jsObjectSet g t.1 { slot with medications := jsDedup (slot.medications ++ t.2) }

/-- `applyStandardPattern` (src/components/input/DataInputForm.tsx lines 68-81,
same code at src/index.tsx lines 388-397): for each pattern key, if the day
grid has that slot, union the pattern's medications into it via a `Set`. -/
def applyStandardPattern (pattern : StandardPattern) (grid : DailyData) : DailyData :=
  pattern.foldl applyPatternSlot grid

/-- Pattern medications for a slot label, `[]` when the label is absent. -/
def patternMeds (pattern : StandardPattern) (t : String) : List String :=
  (jsLookup pattern t).getD []

/-! ### Order facts for the JS sort comparator -/

theorem strLeData_total : ∀ x y, strLeData x y = true ∨ strLeData y x = true
  | [], _ => Or.inl rfl
  | _ :: _, [] => Or.inr rfl
  | c :: cs, d :: ds => by
    simp only [strLeData]
    rcases Nat.lt_trichotomy c.toNat d.toNat with h | h | h
    · left; simp [h]
    · have h1 : ¬ c.toNat < d.toNat := by omega
      have h2 : ¬ d.toNat < c.toNat := by omega
      simpa [h1, h2] using strLeData_total cs ds
    · right; simp [h]

theorem strLeData_trans :
    ∀ x y z, strLeData x y = true → strLeData y z = true → strLeData x z = true
  | [], _, _, _, _ => rfl
  | _ :: _, [], _, h, _ => by simp [strLeData] at h
  | _ :: _, _ :: _, [], _, h => by simp [strLeData] at h
  | c :: cs, d :: ds, e :: es, h₁, h₂ => by
    simp only [strLeData] at h₁ h₂ ⊢
    split at h₁
    case isTrue hcd =>
      split at h₂
      case isTrue hde => rw [if_pos (by omega)]
      case isFalse hde =>
        split at h₂
        case isTrue hed => exact Bool.noConfusion h₂
        case isFalse hed => rw [if_pos (by omega)]
    case isFalse hcd =>
      split at h₁
      case isTrue hdc => exact Bool.noConfusion h₁
      case isFalse hdc =>
        split at h₂
        case isTrue hde =>
          split
          · rfl
          · rw [if_neg (by omega)] at *; omega
        case isFalse hde =>
          split at h₂
          case isTrue hed => exact Bool.noConfusion h₂
          case isFalse hed =>
            rw [if_neg (by omega), if_neg (by omega)]
            exact strLeData_trans cs ds es h₁ h₂

theorem strLeData_antisymm : ∀ x y, strLeData x y = true → strLeData y x = true → x = y
  | [], [], _, _ => rfl
  | [], _ :: _, _, h => by simp [strLeData] at h
  | _ :: _, [], h, _ => by simp [strLeData] at h
  | c :: cs, d :: ds, h₁, h₂ => by
    simp only [strLeData] at h₁ h₂
    split at h₁
    case isTrue hcd =>
      rw [if_neg (by omega), if_pos (by omega)] at h₂
      exact Bool.noConfusion h₂
    case isFalse hcd =>
      split at h₁
      case isTrue hdc => exact Bool.noConfusion h₁
      case isFalse hdc =>
        have hc : c = d := by
          have h : c.toNat = d.toNat := by omega
          rw [← Char.ofNat_toNat c, h, Char.ofNat_toNat]
        rw [if_neg (by omega), if_neg (by omega)] at h₂
        rw [hc, strLeData_antisymm cs ds h₁ h₂]

theorem strLe_antisymm (a b : String) (h₁ : strLe a b = true) (h₂ : strLe b a = true) :
    a = b := by
  cases a with
  | mk xa =>
    cases b with
    | mk xb => exact congrArg String.mk (strLeData_antisymm xa xb h₁ h₂)

instance : IsTotal String strLeP :=
  ⟨fun a b => strLeData_total a.data b.data⟩

instance : IsTrans String strLeP :=
  ⟨fun a b c => strLeData_trans a.data b.data c.data⟩

instance : IsAntisymm String strLeP :=
  ⟨fun a b => strLe_antisymm a b⟩

theorem jsSortStrings_perm (l : List String) : List.Perm (jsSortStrings l) l :=
  List.perm_insertionSort strLeP l

theorem jsSortStrings_pairwise (l : List String) : (jsSortStrings l).Pairwise strLeP :=
  List.sorted_insertionSort strLeP l

theorem jsSortStrings_of_pairwise {l : List String} (h : l.Pairwise strLeP) :
    jsSortStrings l = l :=
  List.Sorted.insertionSort_eq h

theorem jsSortStrings_eq_of_perm {l₁ l₂ : List String} (hp : List.Perm l₁ l₂)
    (hs : l₂.Pairwise strLeP) : jsSortStrings l₁ = l₂ :=
  List.eq_of_perm_of_sorted ((jsSortStrings_perm l₁).trans hp)
    (jsSortStrings_pairwise l₁) hs

theorem jsSortStrings_nodup {l : List String} (h : l.Nodup) : (jsSortStrings l).Nodup :=
  (jsSortStrings_perm l).nodup_iff.mpr h

theorem mem_jsSortStrings {l : List String} {a : String} :
    a ∈ jsSortStrings l ↔ a ∈ l :=
  (jsSortStrings_perm l).mem_iff

/-! ### Association-list lemmas -/

theorem jsLookup_cons (p : String × β) (l : List (String × β)) (k : String) :
    jsLookup (p :: l) k = if p.1 = k then some p.2 else jsLookup l k := by
  by_cases h : p.1 = k <;> simp [jsLookup, List.find?_cons, h]

theorem jsLookup_eq_none_iff {l : List (String × β)} {k : String} :
    jsLookup l k = none ↔ k ∉ l.map Prod.fst := by
  induction l with
  | nil => simp [jsLookup]
  | cons p l ih =>
    by_cases h : p.1 = k
    · simp [jsLookup_cons, h, ih]
    · simp [jsLookup_cons, h, ih]
      tauto

theorem jsLookup_append (l₁ l₂ : List (String × β)) (k : String) :
    jsLookup (l₁ ++ l₂) k =
      match jsLookup l₁ k with
      | some v => some v
      | none => jsLookup l₂ k := by
  induction l₁ with
  | nil => simp [jsLookup]
  | cons p l ih =>
    by_cases h : p.1 = k <;> simp [jsLookup_cons, h, ih]

theorem jsLookup_map_update (l : List (String × β)) (k : String) (v : β)
    (h : k ∈ l.map Prod.fst) :
    jsLookup (l.map (fun p => if p.1 = k then (p.1, v) else p)) k = some v := by
  induction l with
  | nil => simp at h
  | cons p l ih =>
    by_cases hp : p.1 = k
    · simp [jsLookup_cons, hp]
    · have hk : k ∈ l.map Prod.fst := by
        rw [List.map_cons] at h
        rcases List.mem_cons.mp h with hh | hh
        · exact absurd hh.symm hp
        · exact hh
      simpa [jsLookup_cons, hp] using ih hk

theorem jsLookup_map_update_ne (l : List (String × β)) (k : String) (v : β)
    {k' : String} (h : k' ≠ k) :
    jsLookup (l.map (fun p => if p.1 = k then (p.1, v) else p)) k' = jsLookup l k' := by
  induction l with
  | nil => simp
  | cons p l ih =>
    have hk : k ≠ k' := fun hh => h hh.symm
    by_cases hp : p.1 = k
    · simp [jsLookup_cons, hp, hk, ih]
    · by_cases hp' : p.1 = k' <;> simp [jsLookup_cons, hp, hp', hk, h, ih]

theorem jsLookup_jsObjectSet_self (l : List (String × β)) (k : String) (v : β) :
    jsLookup (jsObjectSet l k v) k = some v := by
  unfold jsObjectSet
  by_cases h : k ∈ l.map Prod.fst
  · rw [if_pos h]
    exact jsLookup_map_update l k v h
  · rw [if_neg h, jsLookup_append]
    rw [jsLookup_eq_none_iff.mpr h]
    simp [jsLookup_cons]

theorem jsLookup_jsObjectSet_ne (l : List (String × β)) (k : String) (v : β)
    {k' : String} (h : k' ≠ k) :
    jsLookup (jsObjectSet l k v) k' = jsLookup l k' := by
  unfold jsObjectSet
  by_cases hm : k ∈ l.map Prod.fst
  · rw [if_pos hm]
    exact jsLookup_map_update_ne l k v h
  · rw [if_neg hm, jsLookup_append]
    cases hl : jsLookup l k' with
    | some v' => rfl
    | none =>
      have hk : k ≠ k' := fun hh => h hh.symm
      simp [jsLookup_cons, hk, jsLookup]

theorem keys_jsObjectSet_of_mem (l : List (String × β)) (k : String) (v : β)
    (h : k ∈ l.map Prod.fst) :
    (jsObjectSet l k v).map Prod.fst = l.map Prod.fst := by
  unfold jsObjectSet
  rw [if_pos h, List.map_map]
  apply List.map_congr_left
  intro p _
  by_cases hp : p.1 = k <;> simp [hp]

/-! ### Deduplication lemmas -/

theorem mem_foldl_insertUniq (l : List String) :
    ∀ (acc : List String) (m : String),
      m ∈ l.foldl insertUniq acc ↔ m ∈ acc ∨ m ∈ l := by
  induction l with
  | nil => simp
  | cons x l ih =>
    intro acc m
    rw [List.foldl_cons, ih]
    unfold insertUniq
    by_cases hx : x ∈ acc
    · simp only [if_pos hx, List.mem_cons]
      constructor
      · rintro (h | h)
        · exact Or.inl h
        · exact Or.inr (Or.inr h)
      · rintro (h | h | h)
        · exact Or.inl h
        · exact Or.inl (h ▸ hx)
        · exact Or.inr h
    · simp only [if_neg hx, List.mem_append, List.mem_singleton, List.mem_cons]
      tauto

theorem nodup_foldl_insertUniq (l : List String) :
    ∀ acc : List String, acc.Nodup → (l.foldl insertUniq acc).Nodup := by
  induction l with
  | nil => intro acc h; simpa using h
  | cons x l ih =>
    intro acc h
    rw [List.foldl_cons]
    apply ih
    unfold insertUniq
    by_cases hx : x ∈ acc
    · simpa [hx] using h
    · simp [hx, List.nodup_append, h]

theorem mem_jsDedup {l : List String} {m : String} : m ∈ jsDedup l ↔ m ∈ l := by
  unfold jsDedup
  rw [mem_foldl_insertUniq]
  simp

theorem nodup_jsDedup (l : List String) : (jsDedup l).Nodup :=
  nodup_foldl_insertUniq l [] List.nodup_nil

/-!
### Claim C1

The spec claims `TIME_SLOTS` has 32 half-hour labels from 08:00 to 23:30
inclusive.  The loop in src/index.tsx lines 76-82 only pushes the `:30` label
for hours below 23, so the list stops at "23:00": 31 labels.
-/

/-- Claim C1 (counterexample): `TIME_SLOTS` does not have 32 labels and its
last element is not "23:30". -/
theorem C1_counterexample :
    ¬ (TIME_SLOTS.length = 32 ∧ TIME_SLOTS.getLast? = some "23:30") := by
  decide

/-- Claim C1 (amended): `TIME_SLOTS` consists of fixed half-hour steps from
08:00 to 23:00 inclusive, omitting 23:30 — exactly 31 labels, the last being
"23:00". -/
theorem C1_theorem :
    TIME_SLOTS =
      ["08:00", "08:30", "09:00", "09:30", "10:00", "10:30", "11:00", "11:30",
       "12:00", "12:30", "13:00", "13:30", "14:00", "14:30", "15:00", "15:30",
       "16:00", "16:30", "17:00", "17:30", "18:00", "18:30", "19:00", "19:30",
       "20:00", "20:30", "21:00", "21:30", "22:00", "22:30", "23:00"] ∧
    TIME_SLOTS.length = 31 ∧ TIME_SLOTS.getLast? = some "23:00" := by
  decide

/-!
### Claim C2

`updateHealthData` installs the day record unchanged and the calendar's
"has data" marker holds exactly when some slot carries data.
-/

/-- Claim C2: for every state, date `d` and day record `r`, recording `r` under
`d` and reading day `d` back returns exactly `r`; and after the write, the
calendar's "has data" predicate for `d` holds iff some slot of `r` has a
non-null value, a non-empty medication list, or non-empty comments. -/
theorem C2_theorem (s : AppState) (d : String) (r : DailyData) :
    jsLookup (updateHealthData d r s).healthData d = some r ∧
    (hasData (updateHealthData d r s).healthData d = true ↔
      ∃ p ∈ r, p.2.value ≠ none ∨ p.2.medications ≠ [] ∨ p.2.comments ≠ "") := by
  have h : jsLookup (updateHealthData d r s).healthData d = some r :=
    jsLookup_jsObjectSet_self s.healthData d r
  refine ⟨h, ?_⟩
  rw [hasData, h]
  simp [List.any_eq_true, slotHasData, Option.isSome_iff_ne_none,
    List.isEmpty_iff, or_assoc]

/-! ### Renaming lemmas -/

theorem renameIn_renameIn {a b : String} {l : List String} (hb : b ∉ l) :
    renameIn b a (renameIn a b l) = l := by
  induction l with
  | nil => rfl
  | cons m l ih =>
    have hb' : b ∉ l := fun h => hb (List.mem_cons_of_mem _ h)
    have hm : m ≠ b := fun h => hb (h ▸ List.mem_cons_self m l)
    simp only [renameIn, List.map_cons] at ih ⊢
    by_cases hma : m = a
    · subst hma
      simp [ih hb']
    · simp [hma, hm, ih hb']

/-- Default medication catalog (src/index.tsx line 138). -/
def defaultMedications : List String := ["Medicina A", "Medicina B"]

/-- The store's initial in-memory state (src/index.tsx lines 137-144 and
151-153): empty health data, default catalog, empty pattern. -/
def defaultAppState : AppState := ⟨[], defaultMedications, []⟩

/-- A small concrete state used by the witness theorems. -/
def sampleState : AppState :=
  ⟨[("2024-01-01", [("08:00", ⟨some 7, ["Medicina A"], "x"⟩)])],
   ["Medicina A", "Medicina B"],
   [("08:00", ["Medicina A"])]⟩

/-!
### Claim C3

The round-trip law for `editMedication` fails as stated: the starting state is
arbitrary, but `editMedication` re-sorts the catalog, so an unsorted starting
catalog is not restored even when the renamed-to name appears nowhere.  It
holds once the starting catalog is sorted and the new name occurs nowhere in
the state.
-/

/-- Claim C3 (counterexample): with the starting catalog ["B", "A"], names
a = "A", b = "C", a ≠ b and "C" occurring nowhere in the state, the rename
round trip does not restore the original state: it re-sorts the catalog to
["A", "B"]. -/
theorem C3_counterexample :
    ("A" : String) ≠ "C" ∧
    "C" ∉ (AppState.mk [] ["B", "A"] []).medications ∧
    editMedication "C" "A" (editMedication "A" "C" (AppState.mk [] ["B", "A"] [])) ≠
      AppState.mk [] ["B", "A"] [] := by
  decide

/-- Claim C3 (amended): `editMedication a b` followed by `editMedication b a`
restores the original state — catalog, every day record and the standard
pattern — provided a ≠ b, the starting catalog is sorted, and b occurs nowhere
in the starting state (not in the catalog, not in any day slot's medication
list, not in any standard-pattern slot). -/
theorem C3_theorem (s : AppState) (a b : String) (_hab : a ≠ b)
    (hsorted : s.medications.Pairwise strLeP)
    (hcat : b ∉ s.medications)
    (hhd : ∀ d ∈ s.healthData, ∀ t ∈ d.2, b ∉ t.2.medications)
    (hsp : ∀ t ∈ s.standardPattern, b ∉ t.2) :
    editMedication b a (editMedication a b s) = s := by
  obtain ⟨hd, meds, sp⟩ := s
  simp only [editMedication, AppState.mk.injEq]
  refine ⟨?_, ?_, ?_⟩
  · rw [List.map_map]
    have hp : ∀ d ∈ hd, ∀ t ∈ d.2, b ∉ t.2.medications := hhd
    calc hd.map _ = hd.map id := by
          apply List.map_congr_left
          intro d hdm
          simp only [Function.comp_apply, List.map_map, id_eq]
          rw [← Prod.mk.eta (p := d)]
          refine Prod.ext rfl ?_
          calc d.2.map _ = d.2.map id := by
                apply List.map_congr_left
                intro t htm
                simp only [Function.comp_apply, id_eq]
                rw [← Prod.mk.eta (p := t)]
                refine Prod.ext rfl ?_
                simp only
                rw [renameIn_renameIn (hp d hdm t htm)]
            _ = d.2 := List.map_id d.2
      _ = hd := List.map_id hd
  · apply jsSortStrings_eq_of_perm _ hsorted
    have p1 : List.Perm (jsSortStrings (renameIn a b meds)) (renameIn a b meds) :=
      jsSortStrings_perm _
    have p2 := p1.map (fun m => if m = b then a else m)
    rw [show (renameIn a b meds).map (fun m => if m = b then a else m) =
        renameIn b a (renameIn a b meds) from rfl] at p2
    rw [renameIn_renameIn hcat] at p2
    exact p2
  · rw [List.map_map]
    calc sp.map _ = sp.map id := by
          apply List.map_congr_left
          intro t htm
          simp only [Function.comp_apply, id_eq]
          rw [← Prod.mk.eta (p := t)]
          refine Prod.ext rfl ?_
          simp only
          rw [renameIn_renameIn (hsp t htm)]
      _ = sp := List.map_id sp

/-- Claim C3 (witness): the round-trip law applied to a concrete state. -/
theorem C3_witness :
    editMedication "Medicina C" "Medicina A"
      (editMedication "Medicina A" "Medicina C" sampleState) = sampleState :=
  C3_theorem sampleState "Medicina A" "Medicina C" (by decide) (by decide)
    (by decide) (by decide) (by decide)

/-!
### Claim C4

Sortedness after every catalog mutation holds, as does the no-op behaviour of
`addMedication` on a present name.  Duplicate-freedom fails for
`editMedication`: renaming onto a name already in the catalog produces a
duplicate (the UI guard only rejects renaming a name to itself), and the
initial state already exhibits this.
-/

/-- Claim C4 (counterexample): from the initial (reachable) state, renaming
"Medicina A" to the already-present "Medicina B" leaves the catalog with a
duplicate, refuting the uniqueness part of the claim. -/
theorem C4_counterexample :
    ¬ ((editMedication "Medicina A" "Medicina B" defaultAppState).medications).Nodup := by
  decide

/-- Claim C4 (amended): for any state whose catalog is sorted and
duplicate-free, after `addMedication` the catalog is sorted and
duplicate-free and `addMedication m` is a no-op when `m` is present; after
`editMedication a b` the catalog is always sorted, and duplicate-free provided
`b` is not already in the catalog; after `deleteMedication` the catalog is
sorted and duplicate-free. -/
theorem C4_theorem (s : AppState) (m a b del : String)
    (hsorted : s.medications.Pairwise strLeP) (hnodup : s.medications.Nodup) :
    ((addMedication m s).medications.Pairwise strLeP ∧
      (addMedication m s).medications.Nodup) ∧
    (m ∈ s.medications → addMedication m s = s) ∧
    (editMedication a b s).medications.Pairwise strLeP ∧
    (b ∉ s.medications → (editMedication a b s).medications.Nodup) ∧
    ((deleteMedication del s).medications.Pairwise strLeP ∧
      (deleteMedication del s).medications.Nodup) := by
  refine ⟨⟨?_, ?_⟩, ?_, ?_, ?_, ?_, ?_⟩
  · unfold addMedication
    split
    · exact hsorted
    · exact jsSortStrings_pairwise _
  · unfold addMedication
    split
    case isTrue h => exact hnodup
    case isFalse h =>
      apply jsSortStrings_nodup
      simp [List.nodup_append, hnodup, h]
  · intro h
    unfold addMedication
    rw [if_pos h]
  · exact jsSortStrings_pairwise _
  · intro hb
    apply jsSortStrings_nodup
    apply List.Nodup.map_on _ hnodup
    intro x hx y hy hxy
    by_cases hxa : x = a <;> by_cases hya : y = a
    · rw [hxa, hya]
    · rw [if_pos hxa, if_neg hya] at hxy
      exact absurd (hxy ▸ hy) hb
    · rw [if_neg hxa, if_pos hya] at hxy
      exact absurd (hxy ▸ hx) hb
    · rwa [if_neg hxa, if_neg hya] at hxy
  · exact List.Pairwise.sublist (List.filter_sublist _) hsorted
  · exact List.Pairwise.sublist (List.filter_sublist _) hnodup

/-- Claim C4 (witness): the amended invariants applied to the initial state
with concrete names. -/
theorem C4_witness :
    (addMedication "Ibuprofen" defaultAppState).medications.Pairwise strLeP ∧
    (addMedication "Ibuprofen" defaultAppState).medications.Nodup :=
  (C4_theorem defaultAppState "Ibuprofen" "Medicina A" "Medicina C" "Medicina B"
    (by decide) (by decide)).1

/-!
### Claim C5

`deleteMedication` removes the name everywhere and prunes pattern slots left
empty.
-/

/-- Claim C5: for every state and name, after `deleteMedication med` the name
is gone from the catalog, from every slot of every day record, and from every
standard-pattern slot, and no standard-pattern slot is left with an empty
medication list. -/
theorem C5_theorem (s : AppState) (med : String) :
    med ∉ (deleteMedication med s).medications ∧
    (∀ d ∈ (deleteMedication med s).healthData, ∀ t ∈ d.2,
      med ∉ t.2.medications) ∧
    (∀ t ∈ (deleteMedication med s).standardPattern, med ∉ t.2 ∧ t.2 ≠ []) := by
  refine ⟨?_, ?_, ?_⟩
  · simp [deleteMedication, List.mem_filter]
  · intro d hd t ht
    simp only [deleteMedication] at hd
    obtain ⟨d₀, _, rfl⟩ := List.mem_map.mp hd
    obtain ⟨t₀, _, rfl⟩ := List.mem_map.mp ht
    simp [List.mem_filter]
  · intro t ht
    simp only [deleteMedication] at ht
    obtain ⟨t₀, _, hsome⟩ := List.mem_filterMap.mp ht
    split at hsome
    · exact Option.noConfusion hsome
    case isFalse he =>
      obtain rfl := (Option.some.injEq _ _).mp hsome
      constructor
      · simp [List.mem_filter]
      · intro hemp
        exact he (by rw [List.isEmpty_iff]; exact hemp)

/-- Claim C5 (witness): deleting "Medicina A" from a concrete state leaves the
day slot's medication list free of it. -/
theorem C5_witness :
    "Medicina A" ∉ (TimeSlotData.mk (some 7) [] "x").medications :=
  (C5_theorem sampleState "Medicina A").2.1
    ("2024-01-01", [("08:00", ⟨some 7, [], "x"⟩)]) (by decide)
    ("08:00", ⟨some 7, [], "x"⟩) (by decide)

/-!
### Dynamic (JSON) values for the import path

`loadUserDataBundle` receives the result of `JSON.parse` on a user-selected
file, so its argument is an arbitrary JSON value, not a typed bundle.  Numbers
are modelled as integers (floating point is irrelevant to the truthiness
checks at stake).
-/

/-- A JSON value as produced by `JSON.parse`. -/
inductive Json where
  | null
  | bool (b : Bool)
  | num (n : Int)
  | str (s : String)
  | arr (elems : List Json)
  | obj (fields : List (String × Json))

/-- JS truthiness of a JSON value: `null`, `false`, `0` and `""` are falsy;
every object and array is truthy. -/
def truthy : Json → Bool
  | .null => false
  | .bool b => b
  | .num n => n != 0
  | .str s => s != ""
  | .arr _ => true
  | .obj _ => true

/-- JS property access `j[key]`: a field of an object, `undefined` (here
`none`) on a non-object or a missing field. -/
def getField (j : Json) (key : String) : Option Json :=
  match j with
  | .obj fields => jsLookup fields key
  | _ => none

/-- Truthiness of a possibly-`undefined` JS value. -/
def truthyOpt : Option Json → Bool
  | none => false
  | some v => truthy v

/-- The in-memory state as installed by a successful import, plus the flag
that `saveDataToJsonbin()` was called. -/
structure ImportState where
  healthData : Json
  medications : Json
  standardPattern : Json
  saveScheduled : Bool

/-- `loadUserDataBundle` (src/index.tsx lines 262-271): truthiness-check the
bundle and its three fields; install them and schedule a save on success,
throw `Invalid data structure in JSON file.` otherwise (leaving the in-memory
state untouched). -/
def loadUserDataBundle (bundle : Json) : Except String ImportState :=
  if truthy bundle &&
     truthyOpt (getField bundle "healthData") &&
     truthyOpt (getField bundle "medications") &&
     truthyOpt (getField bundle "standardPattern") then
    .ok { healthData := (getField bundle "healthData").getD .null,
          medications := (getField bundle "medications").getD .null,
          standardPattern := (getField bundle "standardPattern").getD .null,
          saveScheduled := true }
  else .error "Invalid data structure in JSON file."

/-!
### Claim C6

The rejection of inputs missing a field holds, but "accepts any input
containing all three fields" fails: a field that is present with a JS-falsy
value (e.g. `null`) is also rejected by the truthiness check.
-/

/-- Claim C6 (counterexample): a bundle containing all three fields, with
`healthData: null`, is rejected even though no field is missing. -/
theorem C6_counterexample :
    loadUserDataBundle
      (Json.obj [("healthData", Json.null), ("medications", Json.arr []),
                 ("standardPattern", Json.obj [])]) =
      Except.error "Invalid data structure in JSON file." := by
  rfl

/-- Claim C6 (amended): `loadUserDataBundle` throws the invalid-bundle error
(installing nothing) for every input missing at least one of the three fields,
and likewise for every input in which one of the three fields is present but
JS-falsy (e.g. `null`); for every input whose three fields are present with
truthy values — regardless of their structural depth — it installs exactly
those three values into the in-memory state and schedules a save. -/
theorem C6_theorem (bundle : Json) :
    ((getField bundle "healthData" = none ∨
      getField bundle "medications" = none ∨
      getField bundle "standardPattern" = none) →
      loadUserDataBundle bundle = Except.error "Invalid data structure in JSON file.") ∧
    (∀ v, (getField bundle "healthData" = some v ∨
           getField bundle "medications" = some v ∨
           getField bundle "standardPattern" = some v) → truthy v = false →
      loadUserDataBundle bundle = Except.error "Invalid data structure in JSON file.") ∧
    (∀ hd md sp,
      getField bundle "healthData" = some hd → truthy hd = true →
      getField bundle "medications" = some md → truthy md = true →
      getField bundle "standardPattern" = some sp → truthy sp = true →
      loadUserDataBundle bundle = Except.ok ⟨hd, md, sp, true⟩) := by
  have herr : (truthyOpt (getField bundle "healthData") = false ∨
      truthyOpt (getField bundle "medications") = false ∨
      truthyOpt (getField bundle "standardPattern") = false) →
      loadUserDataBundle bundle = Except.error "Invalid data structure in JSON file." := by
    intro hc
    unfold loadUserDataBundle
    rw [if_neg]
    intro hcond
    simp only [Bool.and_eq_true] at hcond
    rcases hc with h | h | h <;> rw [h] at hcond <;> simp at hcond
  refine ⟨?_, ?_, ?_⟩
  · intro h
    apply herr
    rcases h with h | h | h
    · exact Or.inl (by rw [h]; rfl)
    · exact Or.inr (Or.inl (by rw [h]; rfl))
    · exact Or.inr (Or.inr (by rw [h]; rfl))
  · intro v hf hv
    apply herr
    rcases hf with h | h | h
    · exact Or.inl (by rw [h]; exact hv)
    · exact Or.inr (Or.inl (by rw [h]; exact hv))
    · exact Or.inr (Or.inr (by rw [h]; exact hv))
  · intro hd md sp hhd thd hmd tmd hsp tsp
    have hb : truthy bundle = true := by
      cases bundle <;> simp [getField, truthy] at hhd ⊢
    unfold loadUserDataBundle
    rw [if_pos]
    · rw [hhd, hmd, hsp]
      rfl
    · simp [hb, hhd, hmd, hsp, truthyOpt, thd, tmd, tsp]

/-- Claim C6 (witness): a bundle with all three fields truthy — here with
nested structure — is installed with a save scheduled, and a bundle whose
`medications` field is present but falsy (the empty string) is rejected. -/
theorem C6_witness :
    loadUserDataBundle
      (Json.obj [("healthData",
                   Json.obj [("2024-06-01", Json.obj [("08:00", Json.obj [])])]),
                 ("medications", Json.arr [Json.str "Medicina A"]),
                 ("standardPattern", Json.obj [("08:00", Json.arr [])])]) =
      Except.ok ⟨Json.obj [("2024-06-01", Json.obj [("08:00", Json.obj [])])],
                 Json.arr [Json.str "Medicina A"],
                 Json.obj [("08:00", Json.arr [])], true⟩ ∧
    loadUserDataBundle
      (Json.obj [("healthData", Json.obj []),
                 ("medications", Json.str ""),
                 ("standardPattern", Json.obj [])]) =
      Except.error "Invalid data structure in JSON file." :=
  ⟨(C6_theorem _).2.2 _ _ _ rfl rfl rfl rfl rfl rfl,
   (C6_theorem _).2.1 (Json.str "") (Or.inr (Or.inl rfl)) rfl⟩

/-!
### The debounced save (event model)

`saveDataToJsonbin` (src/index.tsx lines 162-180) cancels any pending timer
and schedules a new one 2 seconds out; when a timer fires, if the user is
still authenticated, the current state is snapshotted and PUT to the remote
store.  Time is modelled in whole seconds; every mutation operation of the
store calls `saveDataToJsonbin()` right after updating the in-memory state.
-/

/-- A store instance together with its pending debounce timer and the log of
remote PUT calls (time, snapshot). -/
structure DebouncedStore where
  state : AppState
  isAuthenticated : Bool
  pendingFireTime : Option Nat
  puts : List (Nat × AppState)

/-- A mutation issued at time `t`: the in-memory state is updated
synchronously, the pending timer (if any) is cancelled, and a new timer is
scheduled for `t + 2`. -/
def mutateAt (t : Nat) (f : AppState → AppState) (st : DebouncedStore) :
    DebouncedStore :=
  { st with state := f st.state, pendingFireTime := some (t + 2) }

/-- The pending timer fires: if authenticated, the current state is
snapshotted and PUT to the remote store; the timer is cleared. -/
def fireTimer (st : DebouncedStore) : DebouncedStore :=
  match st.pendingFireTime with
  | none => st
  | some tf =>
    if st.isAuthenticated then
      { st with pendingFireTime := none, puts := st.puts ++ [(tf, st.state)] }
    else { st with pendingFireTime := none }

/-!
### Claim C7

Two mutations one second apart coalesce into a single PUT at t = 3 carrying
the state after the second mutation.
-/

/-- Claim C7: starting from an authenticated store with no pending timer and
no PUTs issued, a mutation `m1` at t = 0 followed by a mutation `m2` at t = 1
and the firing of the (single) pending timer produce exactly one remote PUT;
it happens at t = 3 (hence at or after t = 3), and it carries the state after
`m2`, not the state after `m1`. -/
theorem C7_theorem (st : DebouncedStore) (m1 m2 : AppState → AppState)
    (hauth : st.isAuthenticated = true)
    (_hpend : st.pendingFireTime = none)
    (hputs : st.puts = []) :
    (fireTimer (mutateAt 1 m2 (mutateAt 0 m1 st))).puts =
      [(3, m2 (m1 st.state))] ∧
    ∀ p ∈ (fireTimer (mutateAt 1 m2 (mutateAt 0 m1 st))).puts, 3 ≤ p.1 := by
  have h : (fireTimer (mutateAt 1 m2 (mutateAt 0 m1 st))).puts =
      [(3, m2 (m1 st.state))] := by
    simp [fireTimer, mutateAt, hauth, hputs]
  refine ⟨h, ?_⟩
  intro p hp
  rw [h] at hp
  rcases List.mem_singleton.mp hp with rfl
  exact Nat.le_refl 3

/-- Claim C7 (witness): the coalescing law at a concrete store and concrete
mutations. -/
theorem C7_witness :
    (fireTimer (mutateAt 1 (addMedication "Aspirin")
        (mutateAt 0 (addMedication "Ibuprofen")
          (DebouncedStore.mk defaultAppState true none [])))).puts =
      [(3, addMedication "Aspirin" (addMedication "Ibuprofen" defaultAppState))] :=
  (C7_theorem (DebouncedStore.mk defaultAppState true none [])
    (addMedication "Ibuprofen") (addMedication "Aspirin") rfl rfl rfl).1


/-!
### The remote fetch (`loadDataFromBin`, src/index.tsx lines 86-102)

The whole body of `loadDataFromBin` sits inside a `try`; the inner computation
can throw (the non-404 failure status, a transport failure of `fetch`, or a
`JSON.parse` error), and the function's own `catch` logs any such error and
returns the default bundle.  `parse` abstracts `JSON.parse` (`none` models a
parse exception); the data type is abstract since the function installs the
parsed value without inspection.
-/

/-- The outcome of the `fetch` call: transport failure, or an HTTP response
with status, status text and body text. -/
inductive FetchResponse where
  | netError
  | resp (status : Nat) (statusText : String) (text : String)

/-- The `try` block of `loadDataFromBin`: `response.ok` is status 200-299;
404 returns the default, any other failure status throws
`Failed to load: <statusText>`; an empty body returns the default, otherwise
the parsed body is returned (a parse failure throws). -/
def loadDataInner {α : Type} (parse : String → Option α) (r : FetchResponse)
    (defaultData : α) : Except String α :=
  match r with
  | .netError => .error "TypeError: Failed to fetch"
  | .resp status statusText text =>
    if ¬ (200 ≤ status ∧ status < 300) then
      if status = 404 then .ok defaultData
      else .error ("Failed to load: " ++ statusText)
    else if text = "" then .ok defaultData
    else
      match parse text with
      | some v => .ok v
      | none => .error "SyntaxError: Unexpected token"

/-- `loadDataFromBin`: the `try` block wrapped in the `catch` that logs and
returns the default bundle. -/
def loadDataFromBin {α : Type} (parse : String → Option α) (r : FetchResponse)
    (defaultData : α) : α :=
  match loadDataInner parse r defaultData with
  | .ok v => v
  | .error _ => defaultData

/-!
### Claim C8

The 404 and transport-failure parts hold, but "on any other non-success HTTP
status it fails with a RemoteFetchError" does not: the `throw` sits inside the
function's own `try`, so its `catch` swallows the error and returns the
default bundle.  `loadDataFromBin` never propagates an error to its caller.
-/

/-- Claim C8 (counterexample): on HTTP 500 the internally raised error
(carrying the status text) is caught by the function's own handler, and the
caller receives the default bundle rather than a failure. -/
theorem C8_counterexample :
    loadDataInner (fun _ => (none : Option Nat))
        (FetchResponse.resp 500 "Internal Server Error" "") 42 =
      Except.error "Failed to load: Internal Server Error" ∧
    loadDataFromBin (fun _ => (none : Option Nat))
        (FetchResponse.resp 500 "Internal Server Error" "") 42 = 42 := by
  constructor <;> rfl

/-- Claim C8 (amended): for every response outcome: on HTTP 404
`loadDataFromBin` returns the supplied default bundle; on any other
non-success status the `try` block raises an error carrying the status text,
but the function's own catch swallows it and the caller receives the default
bundle; on transport failure the caller likewise receives the default bundle;
and on a successful response with a non-empty parseable body the parsed bundle
is returned. -/
theorem C8_theorem {α : Type} (parse : String → Option α) (defaultData : α)
    (status : Nat) (statusText text : String) :
    loadDataFromBin parse FetchResponse.netError defaultData = defaultData ∧
    loadDataFromBin parse (FetchResponse.resp 404 statusText text) defaultData =
      defaultData ∧
    (¬ (200 ≤ status ∧ status < 300) → status ≠ 404 →
      loadDataInner parse (FetchResponse.resp status statusText text) defaultData =
        Except.error ("Failed to load: " ++ statusText) ∧
      loadDataFromBin parse (FetchResponse.resp status statusText text) defaultData =
        defaultData) ∧
    (200 ≤ status → status < 300 → text ≠ "" → ∀ v, parse text = some v →
      loadDataFromBin parse (FetchResponse.resp status statusText text) defaultData = v) := by
  refine ⟨rfl, ?_, ?_, ?_⟩
  · have h : ¬ (200 ≤ 404 ∧ 404 < 300) := by omega
    simp [loadDataFromBin, loadDataInner, h]
  · intro hko h404
    have h : loadDataInner parse (FetchResponse.resp status statusText text)
        defaultData = Except.error ("Failed to load: " ++ statusText) := by
      simp [loadDataInner, hko, h404]
    exact ⟨h, by simp [loadDataFromBin, h]⟩
  · intro h1 h2 htext v hv
    have hok : ¬ ¬ (200 ≤ status ∧ status < 300) := by omega
    simp [loadDataFromBin, loadDataInner, hok, htext, hv]

/-- Claim C8 (witness): the amended behaviour at concrete responses — a 503
yields the default bundle, a 200 with a parseable body yields the parsed
value. -/
theorem C8_witness :
    loadDataFromBin (fun t => if t = "{}" then some 7 else none)
        (FetchResponse.resp 503 "Service Unavailable" "{}") 42 = 42 ∧
    loadDataFromBin (fun t => if t = "{}" then some 7 else none)
        (FetchResponse.resp 200 "OK" "{}") 42 = 7 :=
  ⟨((C8_theorem (fun t => if t = "{}" then some 7 else none) 42 503
      "Service Unavailable" "{}").2.2.1 (by omega) (by omega)).2,
   (C8_theorem (fun t => if t = "{}" then some 7 else none) 42 200
      "OK" "{}").2.2.2 (by omega) (by omega) (by decide) 7 (by decide)⟩

/-! ### Characterisation of `applyStandardPattern` -/

theorem mem_keys_of_jsLookup_eq_some {l : List (String × β)} {k : String} {v : β}
    (h : jsLookup l k = some v) : k ∈ l.map Prod.fst := by
  by_contra hk
  rw [jsLookup_eq_none_iff.mpr hk] at h
  exact Option.noConfusion h

theorem keys_applyPatternSlot (g : DailyData) (p : String × List String) :
    (applyPatternSlot g p).map Prod.fst = g.map Prod.fst := by
  unfold applyPatternSlot
  cases h : jsLookup g p.1 with
  | none => rfl
  | some slot => exact keys_jsObjectSet_of_mem _ _ _ (mem_keys_of_jsLookup_eq_some h)

theorem jsLookup_applyPatternSlot_ne (g : DailyData) (p : String × List String)
    {k : String} (h : k ≠ p.1) :
    jsLookup (applyPatternSlot g p) k = jsLookup g k := by
  unfold applyPatternSlot
  cases hl : jsLookup g p.1 with
  | none => rfl
  | some slot => exact jsLookup_jsObjectSet_ne _ _ _ h

theorem jsLookup_applyPatternSlot_self (g : DailyData) (p : String × List String) :
    jsLookup (applyPatternSlot g p) p.1 =
      match jsLookup g p.1 with
      | none => none
      | some slot => some { slot with medications := jsDedup (slot.medications ++ p.2) } := by
  unfold applyPatternSlot
  cases hl : jsLookup g p.1 with
  | none => exact hl
  | some slot => simp [jsLookup_jsObjectSet_self]

theorem applyStandardPattern_lookup :
    ∀ (pattern : StandardPattern) (grid : DailyData) (t : String),
      (pattern.map Prod.fst).Nodup →
      jsLookup (applyStandardPattern pattern grid) t =
        match jsLookup grid t, jsLookup pattern t with
        | none, _ => none
        | some slot, none => some slot
        | some slot, some meds =>
            some { slot with medications := jsDedup (slot.medications ++ meds) }
  | [], grid, t, _ => by
    simp only [applyStandardPattern, List.foldl_nil]
    cases h : jsLookup grid t <;> rfl
  | p :: rest, grid, t, h => by
    rw [List.map_cons] at h
    obtain ⟨hp1, hrest⟩ := List.nodup_cons.mp h
    simp only [applyStandardPattern, List.foldl_cons]
    have IH := applyStandardPattern_lookup rest (applyPatternSlot grid p) t hrest
    simp only [applyStandardPattern] at IH
    rw [IH]
    by_cases ht : t = p.1
    · subst ht
      rw [jsLookup_eq_none_iff.mpr hp1]
      rw [jsLookup_applyPatternSlot_self]
      rw [jsLookup_cons, if_pos rfl]
      cases hg : jsLookup grid p.1 <;> rfl
    · rw [jsLookup_applyPatternSlot_ne grid p ht]
      rw [jsLookup_cons, if_neg (fun hh => ht hh.symm)]

/-!
### Claim C9

Applying the standard pattern unions pattern medications into each existing
grid slot, never removes a medication, introduces no duplicates, and leaves
values and comments untouched.
-/

/-- Claim C9: for every day grid and standard pattern (with the JS-object
invariant that pattern keys are unique), every slot present in the grid is
still present after `applyStandardPattern`; the resulting slot's medication
list contains exactly the union of the old medications and the pattern's
medications for that label, loses no existing medication, gains no duplicates,
and keeps the slot's value and comments unchanged. -/
theorem C9_theorem (pattern : StandardPattern) (grid : DailyData)
    (t : String) (slot : TimeSlotData)
    (hnp : (pattern.map Prod.fst).Nodup)
    (hslot : jsLookup grid t = some slot) :
    jsLookup (applyStandardPattern pattern grid) t ≠ none ∧
    ∀ slot', jsLookup (applyStandardPattern pattern grid) t = some slot' →
      slot'.value = slot.value ∧
      slot'.comments = slot.comments ∧
      (∀ m, m ∈ slot'.medications ↔
        m ∈ slot.medications ∨ m ∈ patternMeds pattern t) ∧
      (∀ m ∈ slot.medications, m ∈ slot'.medications) ∧
      (slot.medications.Nodup → slot'.medications.Nodup) := by
  have H := applyStandardPattern_lookup pattern grid t hnp
  rw [hslot] at H
  cases hp : jsLookup pattern t with
  | none =>
    rw [hp] at H
    refine ⟨by rw [H]; exact fun hh => Option.noConfusion hh, ?_⟩
    intro slot' h'
    rw [H] at h'
    obtain rfl := (Option.some.injEq _ _).mp h'.symm
    refine ⟨rfl, rfl, ?_, fun m hm => hm, fun hh => hh⟩
    intro m
    simp [patternMeds, hp]
  | some meds =>
    rw [hp] at H
    refine ⟨by rw [H]; exact fun hh => Option.noConfusion hh, ?_⟩
    intro slot' h'
    rw [H] at h'
    obtain rfl := (Option.some.injEq _ _).mp h'.symm
    refine ⟨rfl, rfl, ?_, ?_, ?_⟩
    · intro m
      simp [patternMeds, hp, mem_jsDedup, List.mem_append]
    · intro m hm
      simp only [mem_jsDedup, List.mem_append]
      exact Or.inl hm
    · intro _
      exact nodup_jsDedup _

/-- Claim C9 (witness): applying a one-slot pattern to a one-slot grid —
"Medicina B" is unioned into the 08:00 slot's existing ["Medicina A"]. -/
theorem C9_witness :
    "Medicina B" ∈
        (TimeSlotData.mk (some 7) ["Medicina A", "Medicina B"] "x").medications ↔
      "Medicina B" ∈ (TimeSlotData.mk (some 7) ["Medicina A"] "x").medications ∨
      "Medicina B" ∈ patternMeds [("08:00", ["Medicina B"])] "08:00" :=
  ((C9_theorem [("08:00", ["Medicina B"])]
      [("08:00", ⟨some 7, ["Medicina A"], "x"⟩)] "08:00"
      ⟨some 7, ["Medicina A"], "x"⟩ (by decide) (by decide)).2
    ⟨some 7, ["Medicina A", "Medicina B"], "x"⟩ (by decide)).2.2.1 "Medicina B"

/-!
### Claim C10

Pattern entries whose time label is absent from the day grid are ignored: no
slot is created and the day data is unchanged at that label.
-/

/-- Claim C10: `applyStandardPattern` never creates a new slot — the grid's
key list is preserved exactly — and at every label absent from the grid
(in particular any pattern key that is not a grid key) the day data remains
absent. -/
theorem C10_theorem (pattern : StandardPattern) (grid : DailyData) :
    (applyStandardPattern pattern grid).map Prod.fst = grid.map Prod.fst ∧
    ∀ t, jsLookup grid t = none →
      jsLookup (applyStandardPattern pattern grid) t = none := by
  have hkeys : ∀ g : DailyData,
      (applyStandardPattern pattern g).map Prod.fst = g.map Prod.fst := by
    induction pattern with
    | nil => intro g; rfl
    | cons p rest ih =>
      intro g
      simp only [applyStandardPattern, List.foldl_cons] at ih ⊢
      rw [ih (applyPatternSlot g p), keys_applyPatternSlot]
  refine ⟨hkeys grid, ?_⟩
  intro t ht
  rw [jsLookup_eq_none_iff] at ht ⊢
  rw [hkeys grid]
  exact ht

/-- Claim C10 (witness): a pattern entry at 07:00 with no 07:00 slot in the
grid leaves the day data absent at 07:00. -/
theorem C10_witness :
    jsLookup (applyStandardPattern [("07:00", ["Medicina A"])]
        [("08:00", (⟨some 7, ["Medicina A"], "x"⟩ : TimeSlotData))]) "07:00" = none :=
  (C10_theorem [("07:00", ["Medicina A"])]
      [("08:00", (⟨some 7, ["Medicina A"], "x"⟩ : TimeSlotData))]).2 "07:00" (by decide)
